import Mathlib

/-!
Shallow embedding of the model-serving wrapper in
src/model_api/cpp/models/src/model_base.cpp.

The embedding follows the C++ source line by line:

* `getInputLayout` embeds `ModelBase::getInputLayout`.  The configured
  layout map `inputsLayouts` is a `std::map<std::string, ov::Layout>`;
  it is modelled as a key-sorted association list, with `mapLookup`,
  `mapInsertSorted` and `mapIndex` modelling `find`-style access, ordered
  insertion and `operator[]` (which default-constructs and inserts an
  entry on a miss).  `ov::Layout` is modelled as a string; the empty
  string is the empty (unset) layout.
* `load`, `prepareModel` and `infer` embed the member functions of the
  same names.  External collaborators (the OpenVINO core, the inference
  adapter) and the virtual hooks (`prepareInputsOutputs`, `preprocess`,
  `postprocess`) are collected in an `Env` record of functions that the
  theorems quantify over; the calls these functions make are recorded in
  an `Event` trace so that sequencing claims can be stated.
-/

/-- An `ov::Layout`, modelled by its string rendering; `""` is the empty
layout (`ov::Layout::empty()` true). -/
abbrev Layout := String

/-- The `std::map<std::string, ov::Layout>` member `inputsLayouts`,
modelled as an association list kept sorted by key (the iteration order
of `std::map`). -/
abbrev StdMap := List (String × Layout)

/-- Key lookup in the map, as `std::map::find`. -/
def mapLookup : StdMap → String → Option Layout
  | [], _ => none
  | (k, v) :: rest, key => if key = k then some v else mapLookup rest key

/-- Strict lexicographic comparison of keys by character code: the
order `std::map` uses on `std::string` keys. -/
def strLt : List Char → List Char → Bool
  | [], [] => false
  | [], _ :: _ => true
  | _ :: _, [] => false
  | a :: as, b :: bs =>
    if a < b then true else if b < a then false else strLt as bs

/-- Ordered insertion of a binding, preserving the key-sorted order of
`std::map` iteration. -/
def mapInsertSorted (k : String) (v : Layout) : StdMap → StdMap
  | [] => [(k, v)]
  | (k1, v1) :: rest =>
    if strLt k.data k1.data then (k, v) :: (k1, v1) :: rest
    else if k = k1 then (k, v) :: rest
    else (k1, v1) :: mapInsertSorted k v rest

/-- `std::map::operator[]`: returns the mapped value when the key is
present; otherwise inserts a default-constructed (empty) layout under
the key and returns it.  The result pairs the possibly grown map with
the returned layout. -/
def mapIndex (m : StdMap) (k : String) : StdMap × Layout :=
  match mapLookup m k with
  | some v => (m, v)
  | none => (mapInsertSorted k "" m, "")

/-- An `ov::Output<ov::Node>` input tensor, restricted to the three
attributes `getInputLayout` reads: `get_shape()`, the layout annotation
returned by `ov::layout::get_layout` (empty string when the model graph
carries none), and `get_any_name()`. -/
structure InputTensor where
  shape : List Nat
  annotatedLayout : Layout
  name : String
deriving DecidableEq

/-- `ov::layout::get_layout(input)`: the layout annotated on the model
graph for this tensor, empty when there is none. -/
def get_layout (input : InputTensor) : Layout :=
  input.annotatedLayout

/-- The outcome of one `getInputLayout` call: the returned layout, the
state of the `inputsLayouts` member after the call (`operator[]` may
have grown it), and the warning lines written to `slog::warn`. -/
structure LayoutResult where
  layout : Layout
  inputsLayouts : StdMap
  warnings : List String
deriving DecidableEq

/-- `ModelBase::getInputLayout`, embedded over the `inputsLayouts`
member it reads and may mutate.  `getLayoutFromShape` is the shape
heuristic from utils/common.hpp, external to this translation unit and
therefore passed as a function argument. -/
def getInputLayout (getLayoutFromShape : List Nat → Layout)
    (inputsLayouts : StdMap) (input : InputTensor) : LayoutResult :=
  let inputShape := input.shape
  let layout := get_layout input
  if layout = "" then
    if inputsLayouts = [] then
      let layout := getLayoutFromShape inputShape
      { layout := layout
        inputsLayouts := inputsLayouts
        warnings := ["Automatically detected layout " ++ layout ++
                     " for input " ++ input.name ++ " will be used."] }
    else if inputsLayouts.length = 1 then
      { layout := (match inputsLayouts with | e :: _ => e.2 | [] => "")
        inputsLayouts := inputsLayouts
        warnings := [] }
    else
      let r := mapIndex inputsLayouts input.name
      { layout := r.2, inputsLayouts := r.1, warnings := [] }
  else
    { layout := layout, inputsLayouts := inputsLayouts, warnings := [] }

/-- An `ov::Model` as this translation unit manipulates it: the batch
dimension that `ov::set_batch` rewrites, plus an abstract payload
standing for the rest of the graph (which the customization hook may
rewrite but `set_batch` leaves alone). -/
structure Model where
  batch : Nat
  graph : Nat
deriving DecidableEq

/-- `ov::set_batch(model, n)`: rewrites the batch dimension of the
model, leaving the rest of the graph unchanged. -/
def set_batch (m : Model) (n : Nat) : Model :=
  { m with batch := n }

/-- The compilation configuration `config.compilationConfig`, an opaque
mapping from option name to value handed to the adapter. -/
abbrev CompilationConfig := List (String × String)

/-- An `InferenceAdapter` handle as stored in the `inferenceAdapter`
member: either the default `OpenVINOInferenceAdapter` constructed by
`load` when none is supplied, or an externally supplied one. -/
inductive Adapter where
  | openVINO
  | custom (id : Nat)
deriving DecidableEq

/-- The `ModelBase` state touched by this translation unit: the
configured model file path, the compilation configuration, the
`inferenceAdapter` member (a null shared pointer before `load`), and
the `inputsLayouts` member. -/
structure ModelBase where
  modelFile : String
  config : CompilationConfig
  inferenceAdapter : Option Adapter
  inputsLayouts : StdMap
deriving DecidableEq

/-- The error raised when `core.read_model` cannot read the configured
model description (the ModelReadError of the error taxonomy). -/
structure ModelReadError where
  msg : String
deriving DecidableEq

/-- A tensor payload, abstracted to its flat data. -/
abbrev Tensor := List Nat

/-- An `InferenceInput`: the mapping from input name to tensor filled
in by `preprocess`. -/
abbrev InferenceInput := List (String × Tensor)

/-- The raw `outputsData` produced by the adapter: a mapping from output
name to tensor. -/
abbrev InferenceOutput := List (String × Tensor)

/-- Modelled from the spec: the internal model data produced by
`preprocess` (bookkeeping such as resize ratios, defined outside this
translation unit), abstracted to an opaque value. -/
abbrev InternalModelData := Nat

/-- The raw `InputData` handed to `infer`, abstracted to an opaque
payload. -/
structure InputData where
  raw : Nat
deriving DecidableEq

/-- Modelled from the spec: the raw result fields of `ResultBase`
(declared in models/results.h, outside the excerpt) — a frame id and
optional metadata, with their default-constructed values. -/
structure ResultBase where
  frameId : Int
  metaData : Option Nat
deriving DecidableEq

/-- The state of a default-constructed `ResultBase` sub-object, as in
the local `InferenceResult result;` of `infer`. -/
def defaultResultBase : ResultBase :=
  { frameId := -1, metaData := none }

/-- An `InferenceResult`: a `ResultBase` sub-object plus the raw
`outputsData` and the `internalModelData` carried from preprocessing to
postprocessing. -/
structure InferenceResult where
  base : ResultBase
  outputsData : InferenceOutput
  internalModelData : InternalModelData
deriving DecidableEq

/-- The task-specific fields a derived result type adds to
`ResultBase`, abstracted to a name-to-value mapping. -/
abbrev StructuredFields := List (String × Int)

/-- The object behind the `std::unique_ptr<ResultBase>` that `infer`
returns: its `ResultBase` sub-object plus the task-specific structured
fields the concrete subtype adds. -/
structure DerivedResult where
  base : ResultBase
  structured : StructuredFields
deriving DecidableEq

/-- One observable call made by `load`, `prepareModel` or `infer` to an
external collaborator or virtual hook, recorded with its arguments. -/
inductive Event where
  | readModelEv (file : String)
  | logBasicModelInfoEv (m : Model)
  | prepareInputsOutputsEv (m : Model)
  | setBatchEv (m : Model) (n : Nat)
  | adapterLoadModelEv (m : Model) (device : String) (cfg : CompilationConfig)
  | preprocessEv (d : InputData)
  | adapterInferEv (inputs : InferenceInput)
  | postprocessEv (r : InferenceResult)
deriving DecidableEq

/-- Recognizes the adapter compilation call `loadModel`. -/
def Event.isAdapterLoadModel : Event → Bool
  | .adapterLoadModelEv _ _ _ => true
  | _ => false

/-- Recognizes the adapter execution call `inferenceAdapter->infer`. -/
def Event.isAdapterInfer : Event → Bool
  | .adapterInferEv _ => true
  | _ => false

/-- The external collaborators and virtual hooks the translation unit
calls into: `core.read_model`, the `prepareInputsOutputs` hook, the
`preprocess` hook (which fills the inputs map and returns the internal
model data), the adapter execution, and the `postprocess` hook.  The
theorems quantify over this record. -/
structure Env where
  read_model : String → Except ModelReadError Model
  prepareInputsOutputs : Model → Model
  preprocess : InputData → InternalModelData × InferenceInput
  adapterInfer : InferenceInput → InferenceOutput
  postprocess : InferenceResult → DerivedResult

/-- `ModelBase::prepareModel`: read the model description from the
configured file (propagating a read failure), log basic model info,
invoke the `prepareInputsOutputs` hook, set the batch size to 1, and
hand the resulting model with the compilation configuration to the
adapter for compilation on device AUTO.  Returns the outcome together
with the trace of external calls made. -/
def prepareModel (env : Env) (mb : ModelBase) :
    Except ModelReadError Unit × List Event :=
  match env.read_model mb.modelFile with
  | .error e => (.error e, [Event.readModelEv mb.modelFile])
  | .ok model =>
    let model1 := env.prepareInputsOutputs model
    let model2 := set_batch model1 1
    (.ok (),
     [Event.readModelEv mb.modelFile,
      Event.logBasicModelInfoEv model,
      Event.prepareInputsOutputsEv model,
      Event.setBatchEv model1 1,
      Event.adapterLoadModelEv model2 "AUTO" mb.config])

/-- The adapter `load` stores: the supplied one, or a freshly
constructed default `OpenVINOInferenceAdapter` when the supplied shared
pointer is null. -/
def chooseAdapter : Option Adapter → Adapter
  | none => Adapter.openVINO
  | some a => a

/-- `ModelBase::load`: replace the `inferenceAdapter` member with the
supplied adapter, or with a freshly constructed default OpenVINO
adapter when none is supplied, then run `prepareModel`.  Returns the
outcome, the `ModelBase` state after the call, and the trace. -/
def load (env : Env) (mb : ModelBase) (adapter : Option Adapter) :
    Except ModelReadError Unit × ModelBase × List Event :=
  let mb1 := { mb with inferenceAdapter := some (chooseAdapter adapter) }
  let r := prepareModel env mb1
  (r.1, mb1, r.2)

/-- `ModelBase::infer`: preprocess the input data into named tensors
(also producing the internal model data), execute the compiled model on
them through the adapter, build the raw `InferenceResult`, postprocess
it into the task-specific result, and finally assign the raw result's
`ResultBase` sub-object over the returned object's base (the
`*retVal = static_cast<ResultBase&>(result)` slice assignment). -/
def infer (env : Env) (inputData : InputData) :
    DerivedResult × List Event :=
  let pre := env.preprocess inputData
  let internalModelData := pre.1
  let inputs := pre.2
  let outputsData := env.adapterInfer inputs
  let result : InferenceResult :=
    { base := defaultResultBase
      outputsData := outputsData
      internalModelData := internalModelData }
  let retVal := env.postprocess result
  ({ retVal with base := result.base },
   [Event.preprocessEv inputData,
    Event.adapterInferEv inputs,
    Event.postprocessEv result])

/-- A concrete environment used to instantiate the quantified theorems:
reading succeeds only for the file good.xml. -/
def envEx : Env where
  read_model := fun file =>
    if file = "good.xml" then Except.ok { batch := 4, graph := 7 }
    else Except.error { msg := "cannot read the model file" }
  prepareInputsOutputs := fun m => { m with graph := m.graph + 1 }
  preprocess := fun d => (d.raw, [("image", [d.raw, 1, 2])])
  adapterInfer := fun inputs => [("scores", [inputs.length])]
  postprocess := fun r =>
    { base := r.base, structured := [("topScore", Int.ofNat r.outputsData.length)] }

/-- A concrete `ModelBase` whose configured file exists for `envEx`. -/
def mbEx : ModelBase where
  modelFile := "good.xml"
  config := [("PERFORMANCE_HINT", "LATENCY")]
  inferenceAdapter := none
  inputsLayouts := []

/-- A concrete `ModelBase` whose configured file does not exist for
`envEx`. -/
def mbBadEx : ModelBase :=
  { mbEx with modelFile := "missing.xml" }

/-- A concrete shape heuristic used to instantiate the quantified
theorems. -/
def glfsEx : List Nat → Layout :=
  fun shape => if shape.length = 4 then "NCHW" else "NC"

/-! ## Lemmas about the ordered map -/

/-- The key order is irreflexive. -/
theorem strLt_self (l : List Char) : strLt l l = false := by
  induction l with
  | nil => rfl
  | cons a as ih => simp [strLt, ih]

/-- After `mapInsertSorted k v m`, looking up `k` yields `v`. -/
theorem mapLookup_mapInsertSorted_self (k : String) (v : Layout) (m : StdMap) :
    mapLookup (mapInsertSorted k v m) k = some v := by
  induction m with
  | nil => simp [mapInsertSorted, mapLookup]
  | cons hd tl ih =>
    obtain ⟨k1, v1⟩ := hd
    cases h1 : strLt k.data k1.data with
    | true => simp [mapInsertSorted, h1, mapLookup]
    | false =>
      by_cases h2 : k = k1
      · subst h2
        simp [mapInsertSorted, strLt_self, mapLookup]
      · simp [mapInsertSorted, h1, h2, mapLookup, ih]

/-- `mapInsertSorted k v m` does not change the lookup of any other
key. -/
theorem mapLookup_mapInsertSorted_ne (k key : String) (v : Layout) (m : StdMap)
    (hne : key ≠ k) :
    mapLookup (mapInsertSorted k v m) key = mapLookup m key := by
  induction m with
  | nil => simp [mapInsertSorted, mapLookup, hne]
  | cons hd tl ih =>
    obtain ⟨k1, v1⟩ := hd
    cases h1 : strLt k.data k1.data with
    | true => simp [mapInsertSorted, h1, mapLookup, hne]
    | false =>
      by_cases h2 : k = k1
      · subst h2
        simp [mapInsertSorted, h1, mapLookup, hne]
      · by_cases h3 : key = k1
        · simp [mapInsertSorted, h1, h2, mapLookup, h3]
        · simp [mapInsertSorted, h1, h2, mapLookup, h3, ih]

/-- Inserting a key that is absent grows the map by exactly one
entry. -/
theorem length_mapInsertSorted (k : String) (v : Layout) (m : StdMap)
    (h : mapLookup m k = none) :
    (mapInsertSorted k v m).length = m.length + 1 := by
  induction m with
  | nil => simp [mapInsertSorted]
  | cons hd tl ih =>
    obtain ⟨k1, v1⟩ := hd
    by_cases h2 : k = k1
    · simp [mapLookup, h2] at h
    · have htl : mapLookup tl k = none := by
        simpa [mapLookup, h2] using h
      cases h1 : strLt k.data k1.data with
      | true => simp [mapInsertSorted, h1]
      | false => simp [mapInsertSorted, h1, h2, ih htl]

/-! ## The claims -/

/-- Claim C3: for every input tensor whose model graph carries a
non-empty layout annotation, getInputLayout returns exactly that
annotated layout, leaves the configured map unchanged, emits no
warning, and does not consult the shape heuristic (the result is the
same for every heuristic and every configured map). -/
theorem getInputLayout_annotated (g : List Nat → Layout) (m : StdMap)
    (input : InputTensor) (h : input.annotatedLayout ≠ "") :
    getInputLayout g m input =
      { layout := input.annotatedLayout, inputsLayouts := m, warnings := [] } := by
  simp [getInputLayout, get_layout, h]

/-- Witness for C3 at a concrete annotated input. -/
theorem getInputLayout_annotated_witness :
    (⟨[1, 3, 8, 8], "NHWC", "image"⟩ : InputTensor).annotatedLayout ≠ ""
    ∧ getInputLayout glfsEx [("image", "NCHW")] ⟨[1, 3, 8, 8], "NHWC", "image"⟩ =
        { layout := "NHWC", inputsLayouts := [("image", "NCHW")], warnings := [] } :=
  ⟨by decide,
   getInputLayout_annotated glfsEx [("image", "NCHW")]
     ⟨[1, 3, 8, 8], "NHWC", "image"⟩ (by decide)⟩

/-- Claim C4: for every input tensor with no model-annotated layout,
when the configured layout map is empty, getInputLayout returns the
layout the shape heuristic derives from the tensor's shape and emits
exactly one warning line. -/
theorem getInputLayout_empty_config (g : List Nat → Layout)
    (input : InputTensor) (h : input.annotatedLayout = "") :
    (getInputLayout g [] input).layout = g input.shape
    ∧ (getInputLayout g [] input).inputsLayouts = []
    ∧ (getInputLayout g [] input).warnings.length = 1 := by
  simp [getInputLayout, get_layout, h]

/-- Witness for C4 at a concrete unannotated input. -/
theorem getInputLayout_empty_config_witness :
    (⟨[1, 3, 8, 8], "", "image"⟩ : InputTensor).annotatedLayout = ""
    ∧ ((getInputLayout glfsEx [] ⟨[1, 3, 8, 8], "", "image"⟩).layout =
         glfsEx [1, 3, 8, 8]
       ∧ (getInputLayout glfsEx [] ⟨[1, 3, 8, 8], "", "image"⟩).inputsLayouts = []
       ∧ (getInputLayout glfsEx [] ⟨[1, 3, 8, 8], "", "image"⟩).warnings.length = 1) :=
  ⟨rfl, getInputLayout_empty_config glfsEx ⟨[1, 3, 8, 8], "", "image"⟩ rfl⟩

/-- Claim C5: for every input tensor with no model-annotated layout,
when the configured layout map contains exactly one entry,
getInputLayout returns that single configured layout whatever the
input's name is; the entry's key is ignored. -/
theorem getInputLayout_single_entry (g : List Nat → Layout)
    (input : InputTensor) (k : String) (v : Layout)
    (h : input.annotatedLayout = "") :
    getInputLayout g [(k, v)] input =
      { layout := v, inputsLayouts := [(k, v)], warnings := [] } := by
  simp [getInputLayout, get_layout, h]

/-- Witness for C5: an input whose name differs from the single
configured key still receives the configured layout. -/
theorem getInputLayout_single_entry_witness :
    (⟨[1, 3, 8, 8], "", "someOtherName"⟩ : InputTensor).annotatedLayout = ""
    ∧ getInputLayout glfsEx [("image", "NHWC")]
        ⟨[1, 3, 8, 8], "", "someOtherName"⟩ =
      { layout := "NHWC", inputsLayouts := [("image", "NHWC")], warnings := [] } :=
  ⟨rfl,
   getInputLayout_single_entry glfsEx ⟨[1, 3, 8, 8], "", "someOtherName"⟩
     "image" "NHWC" rfl⟩

/-- Counterexample to claim C1 as stated: with two configured entries
and an input name that is absent from the map, getInputLayout does not
fail with UndefinedLayoutError — it returns a layout, namely the
default-constructed empty one, and grows the map. -/
theorem getInputLayout_missing_name_returns_empty_cex :
    getInputLayout glfsEx [("alpha", "NCHW"), ("beta", "NHWC")]
        ⟨[1, 3, 8, 8], "", "gamma"⟩ =
      { layout := ""
        inputsLayouts := [("alpha", "NCHW"), ("beta", "NHWC"), ("gamma", "")]
        warnings := [] } := by
  decide

/-- Claim C1 as amended: for every input tensor with no model-annotated
layout, when the configured map has two or more entries and none for
the input's name, getInputLayout does not fail; it returns the
default-constructed empty layout and inserts an empty entry for that
name into the map. -/
theorem getInputLayout_missing_name_amended (g : List Nat → Layout)
    (m : StdMap) (input : InputTensor) (hann : input.annotatedLayout = "")
    (hlen : 2 ≤ m.length) (hmiss : mapLookup m input.name = none) :
    (getInputLayout g m input).layout = ""
    ∧ mapLookup (getInputLayout g m input).inputsLayouts input.name = some ""
    ∧ (getInputLayout g m input).warnings = [] := by
  have hne : m ≠ [] := by
    intro hm
    subst hm
    simp at hlen
  have h1 : ¬ (m.length = 1) := by omega
  simp [getInputLayout, get_layout, hann, hne, h1, mapIndex, hmiss,
        mapLookup_mapInsertSorted_self]

/-- Witness for the amended C1 at a concrete two-entry map and an
unlisted name. -/
theorem getInputLayout_missing_name_amended_witness :
    ((⟨[1, 3, 8, 8], "", "gamma"⟩ : InputTensor).annotatedLayout = ""
     ∧ 2 ≤ ([("alpha", "NCHW"), ("beta", "NHWC")] : StdMap).length
     ∧ mapLookup [("alpha", "NCHW"), ("beta", "NHWC")] "gamma" = none)
    ∧ ((getInputLayout glfsEx [("alpha", "NCHW"), ("beta", "NHWC")]
          ⟨[1, 3, 8, 8], "", "gamma"⟩).layout = ""
       ∧ mapLookup (getInputLayout glfsEx [("alpha", "NCHW"), ("beta", "NHWC")]
            ⟨[1, 3, 8, 8], "", "gamma"⟩).inputsLayouts "gamma" = some ""
       ∧ (getInputLayout glfsEx [("alpha", "NCHW"), ("beta", "NHWC")]
            ⟨[1, 3, 8, 8], "", "gamma"⟩).warnings = []) :=
  ⟨⟨rfl, by decide, by decide⟩,
   getInputLayout_missing_name_amended glfsEx
     [("alpha", "NCHW"), ("beta", "NHWC")] ⟨[1, 3, 8, 8], "", "gamma"⟩
     rfl (by decide) (by decide)⟩

/-- Claim C10: when the map has two or more entries and the unannotated
input's name is absent, the lookup inserts a default-constructed empty
entry for that name: the map after the call has one more entry, maps
the name to the empty layout, and agrees with the old map on every
other key. -/
theorem getInputLayout_inserts_default_entry (g : List Nat → Layout)
    (m : StdMap) (input : InputTensor) (hann : input.annotatedLayout = "")
    (hlen : 2 ≤ m.length) (hmiss : mapLookup m input.name = none) :
    mapLookup (getInputLayout g m input).inputsLayouts input.name = some ""
    ∧ (getInputLayout g m input).inputsLayouts.length = m.length + 1
    ∧ ∀ key, key ≠ input.name →
        mapLookup (getInputLayout g m input).inputsLayouts key = mapLookup m key := by
  have hne : m ≠ [] := by
    intro hm
    subst hm
    simp at hlen
  have h1 : ¬ (m.length = 1) := by omega
  refine ⟨?_, ?_, ?_⟩
  · simp [getInputLayout, get_layout, hann, hne, h1, mapIndex, hmiss,
          mapLookup_mapInsertSorted_self]
  · simp [getInputLayout, get_layout, hann, hne, h1, mapIndex, hmiss,
          length_mapInsertSorted _ _ _ hmiss]
  · intro key hkey
    simp [getInputLayout, get_layout, hann, hne, h1, mapIndex, hmiss,
          mapLookup_mapInsertSorted_ne _ _ _ _ hkey]

/-- Witness for C10 at a concrete two-entry map and an unlisted
name. -/
theorem getInputLayout_inserts_default_entry_witness :
    ((⟨[2, 5], "", "extra"⟩ : InputTensor).annotatedLayout = ""
     ∧ 2 ≤ ([("alpha", "NCHW"), ("beta", "NHWC")] : StdMap).length
     ∧ mapLookup [("alpha", "NCHW"), ("beta", "NHWC")] "extra" = none)
    ∧ (mapLookup (getInputLayout glfsEx [("alpha", "NCHW"), ("beta", "NHWC")]
          ⟨[2, 5], "", "extra"⟩).inputsLayouts "extra" = some ""
       ∧ (getInputLayout glfsEx [("alpha", "NCHW"), ("beta", "NHWC")]
            ⟨[2, 5], "", "extra"⟩).inputsLayouts.length =
          ([("alpha", "NCHW"), ("beta", "NHWC")] : StdMap).length + 1
       ∧ ∀ key, key ≠ (⟨[2, 5], "", "extra"⟩ : InputTensor).name →
           mapLookup (getInputLayout glfsEx [("alpha", "NCHW"), ("beta", "NHWC")]
              ⟨[2, 5], "", "extra"⟩).inputsLayouts key =
             mapLookup [("alpha", "NCHW"), ("beta", "NHWC")] key) :=
  ⟨⟨rfl, by decide, by decide⟩,
   getInputLayout_inserts_default_entry glfsEx
     [("alpha", "NCHW"), ("beta", "NHWC")] ⟨[2, 5], "", "extra"⟩
     rfl (by decide) (by decide)⟩

/-- Counterexample to claim C9 as stated: two inputs with the same
shape and the same (empty) annotation, resolved against the same
configured map, can receive different layouts, because the multi-entry
branch looks the layout up by the input's name. -/
theorem getInputLayout_same_shape_not_deterministic_cex :
    (⟨[1, 3, 8, 8], "", "alpha"⟩ : InputTensor).shape =
      (⟨[1, 3, 8, 8], "", "beta"⟩ : InputTensor).shape
    ∧ (⟨[1, 3, 8, 8], "", "alpha"⟩ : InputTensor).annotatedLayout =
      (⟨[1, 3, 8, 8], "", "beta"⟩ : InputTensor).annotatedLayout
    ∧ (getInputLayout glfsEx [("alpha", "NCHW"), ("beta", "NHWC")]
         ⟨[1, 3, 8, 8], "", "alpha"⟩).layout ≠
      (getInputLayout glfsEx [("alpha", "NCHW"), ("beta", "NHWC")]
         ⟨[1, 3, 8, 8], "", "beta"⟩).layout := by
  decide

/-- Claim C9 as amended: layout resolution is deterministic given the
shape, the annotation, the configured map and the input's name — two
calls on inputs agreeing on all of these return identical results. -/
theorem getInputLayout_deterministic (g : List Nat → Layout) (m : StdMap)
    (i1 i2 : InputTensor) (hs : i1.shape = i2.shape)
    (ha : i1.annotatedLayout = i2.annotatedLayout) (hn : i1.name = i2.name) :
    getInputLayout g m i1 = getInputLayout g m i2 := by
  have h12 : i1 = i2 := by
    cases i1
    cases i2
    simp_all
  rw [h12]

/-- Witness for the amended C9 at two concrete equal-attribute
inputs. -/
theorem getInputLayout_deterministic_witness :
    ((⟨[1, 3, 8, 8], "", "alpha"⟩ : InputTensor).shape =
       (⟨[1, 3, 8, 8], "", "alpha"⟩ : InputTensor).shape
     ∧ (⟨[1, 3, 8, 8], "", "alpha"⟩ : InputTensor).annotatedLayout =
       (⟨[1, 3, 8, 8], "", "alpha"⟩ : InputTensor).annotatedLayout
     ∧ (⟨[1, 3, 8, 8], "", "alpha"⟩ : InputTensor).name =
       (⟨[1, 3, 8, 8], "", "alpha"⟩ : InputTensor).name)
    ∧ getInputLayout glfsEx [("alpha", "NCHW"), ("beta", "NHWC")]
        ⟨[1, 3, 8, 8], "", "alpha"⟩ =
      getInputLayout glfsEx [("alpha", "NCHW"), ("beta", "NHWC")]
        ⟨[1, 3, 8, 8], "", "alpha"⟩ :=
  ⟨⟨rfl, rfl, rfl⟩,
   getInputLayout_deterministic glfsEx [("alpha", "NCHW"), ("beta", "NHWC")]
     ⟨[1, 3, 8, 8], "", "alpha"⟩ ⟨[1, 3, 8, 8], "", "alpha"⟩ rfl rfl rfl⟩

/-- Counterexample to claim C2 as stated: when reading the model
description fails, load does fail with the read error, but the
ModelBase state is not left unchanged — the inferenceAdapter member has
already been replaced before the failure. -/
theorem load_read_failure_replaces_adapter_cex :
    (load envEx mbBadEx none).1 =
      Except.error { msg := "cannot read the model file" }
    ∧ (load envEx mbBadEx none).2.1.inferenceAdapter ≠ mbBadEx.inferenceAdapter := by
  refine ⟨rfl, ?_⟩
  simp [load, prepareModel, envEx, mbBadEx, mbEx]

/-- Claim C2 as amended: when reading the model description fails, load
fails with the propagated ModelReadError and no adapter compilation
call happens, but the inferenceAdapter member has already been replaced
with the supplied (or default OpenVINO) adapter; the other members are
unchanged. -/
theorem load_read_failure (env : Env) (mb : ModelBase) (a : Option Adapter)
    (e : ModelReadError) (h : env.read_model mb.modelFile = Except.error e) :
    load env mb a =
      (Except.error e,
       { mb with inferenceAdapter := some (chooseAdapter a) },
       [Event.readModelEv mb.modelFile]) := by
  simp [load, prepareModel, h]

/-- Witness for the amended C2 at a concrete missing model file. -/
theorem load_read_failure_witness :
    envEx.read_model mbBadEx.modelFile =
      Except.error { msg := "cannot read the model file" }
    ∧ load envEx mbBadEx none =
        (Except.error { msg := "cannot read the model file" },
         { mbBadEx with inferenceAdapter := some Adapter.openVINO },
         [Event.readModelEv mbBadEx.modelFile]) :=
  ⟨rfl,
   load_read_failure envEx mbBadEx none
     { msg := "cannot read the model file" } rfl⟩

/-- Claim C6: prepareModel reads the model description, then invokes
the prepareInputsOutputs hook, then forces the batch dimension to 1,
then submits the model with the compilation configuration to the
adapter on device AUTO — in that order, so the model handed to the
adapter always has batch size 1. -/
theorem prepareModel_sequence (env : Env) (mb : ModelBase) (m : Model)
    (h : env.read_model mb.modelFile = Except.ok m) :
    prepareModel env mb =
      (Except.ok (),
       [Event.readModelEv mb.modelFile,
        Event.logBasicModelInfoEv m,
        Event.prepareInputsOutputsEv m,
        Event.setBatchEv (env.prepareInputsOutputs m) 1,
        Event.adapterLoadModelEv (set_batch (env.prepareInputsOutputs m) 1)
          "AUTO" mb.config])
    ∧ (set_batch (env.prepareInputsOutputs m) 1).batch = 1 := by
  refine ⟨?_, rfl⟩
  simp [prepareModel, h]

/-- Witness for C6 at a concrete readable model file. -/
theorem prepareModel_sequence_witness :
    envEx.read_model mbEx.modelFile = Except.ok { batch := 4, graph := 7 }
    ∧ (prepareModel envEx mbEx =
        (Except.ok (),
         [Event.readModelEv "good.xml",
          Event.logBasicModelInfoEv { batch := 4, graph := 7 },
          Event.prepareInputsOutputsEv { batch := 4, graph := 7 },
          Event.setBatchEv { batch := 4, graph := 8 } 1,
          Event.adapterLoadModelEv { batch := 1, graph := 8 } "AUTO"
            [("PERFORMANCE_HINT", "LATENCY")]])
       ∧ (set_batch (envEx.prepareInputsOutputs { batch := 4, graph := 7 }) 1).batch = 1) :=
  ⟨rfl, prepareModel_sequence envEx mbEx { batch := 4, graph := 7 } rfl⟩

/-- Claim C7: every infer invocation performs exactly one adapter
execution call, in the fixed sequence preprocess, execute,
postprocess. -/
theorem infer_single_dispatch (env : Env) (d : InputData) :
    (infer env d).2 =
      [Event.preprocessEv d,
       Event.adapterInferEv (env.preprocess d).2,
       Event.postprocessEv
         { base := defaultResultBase
           outputsData := env.adapterInfer (env.preprocess d).2
           internalModelData := (env.preprocess d).1 }]
    ∧ (infer env d).2.countP Event.isAdapterInfer = 1 := by
  refine ⟨rfl, ?_⟩
  simp [infer, Event.isAdapterInfer]

/-- Claim C8: the structured fields of the result returned by infer
after a successful load come solely from the postprocess hook applied
to the raw inference result, and the base fields of the returned object
are overwritten with the raw result's base fields (the merge). -/
theorem infer_postprocess_merge (env : Env) (mb : ModelBase)
    (a : Option Adapter) (d : InputData)
    (_h : (load env mb a).1 = Except.ok ()) :
    ∃ r : InferenceResult,
      r.base = defaultResultBase
      ∧ r.outputsData = env.adapterInfer (env.preprocess d).2
      ∧ r.internalModelData = (env.preprocess d).1
      ∧ (infer env d).1.structured = (env.postprocess r).structured
      ∧ (infer env d).1.base = r.base :=
  ⟨{ base := defaultResultBase
     outputsData := env.adapterInfer (env.preprocess d).2
     internalModelData := (env.preprocess d).1 },
   rfl, rfl, rfl, rfl, rfl⟩

/-- Witness for C8 at a concrete loaded model and input. -/
theorem infer_postprocess_merge_witness :
    (load envEx mbEx none).1 = Except.ok ()
    ∧ ∃ r : InferenceResult,
        r.base = defaultResultBase
        ∧ r.outputsData = envEx.adapterInfer (envEx.preprocess { raw := 5 }).2
        ∧ r.internalModelData = (envEx.preprocess { raw := 5 }).1
        ∧ (infer envEx { raw := 5 }).1.structured =
            (envEx.postprocess r).structured
        ∧ (infer envEx { raw := 5 }).1.base = r.base :=
  ⟨rfl, infer_postprocess_merge envEx mbEx none { raw := 5 } rfl⟩
